import Mathlib

/-!
Shallow embedding of the NARA simple UI mining-operation lifecycle manager.

Source files embedded here:
- src/src/App.jsx (handleFinalize, handleMine, reconciliation and optimistic
  counter updates);
- src/src/services/contracts.js (provider rotation, getClaimableEpochsBatch);
- src/src/services/mining.js (getPendingMines); shipped as src/unnamed/part_007;
- src/src/utils/validation.js (sanitizeError);
- src/src/constants/limits.js (ERROR_MESSAGES).

JavaScript numbers that hold chain counters are modelled as Int where the code
can produce negative intermediate values, and as Nat where the source value is
a decoded unsigned chain counter. Nullable values are modelled with Option.
-/

namespace NaraUI

/-- Dashboard fields used by the lifecycle manager, from the object built by
getUserDashboard in src/src/services/contracts.js: effectiveCap, hardCap and
pendingTickets are produced by Number(...) over unsigned chain counters. -/
structure Dashboard where
  effectiveCap : Nat
  hardCap : Nat
  pendingTickets : Nat
deriving DecidableEq

/-- Cap used by handleFinalize in App.jsx:
cap = dashboard?.effectiveCap || dashboard?.hardCap || 1.
A JavaScript || on numbers treats 0 as falsy, and a null dashboard yields the
final fallback 1. -/
def capFinalize (dash : Option Dashboard) : Nat :=
  match dash with
  | none => 1
  | some d => if d.effectiveCap ≠ 0 then d.effectiveCap
              else if d.hardCap ≠ 0 then d.hardCap else 1

/-- Cap used by handleMine in App.jsx:
effectiveCap = dashboard?.effectiveCap || dashboard?.hardCap || 0. -/
def capMine (dash : Option Dashboard) : Nat :=
  match dash with
  | none => 0
  | some d => if d.effectiveCap ≠ 0 then d.effectiveCap
              else if d.hardCap ≠ 0 then d.hardCap else 0

/-- Used tickets as read in App.jsx: dashboard?.pendingTickets || 0. -/
def usedTickets (dash : Option Dashboard) : Nat :=
  match dash with
  | none => 0
  | some d => d.pendingTickets

/-- The isPreciseCap flag of handleMine: !!dashboard?.effectiveCap. -/
def hasPreciseCap (dash : Option Dashboard) : Bool :=
  match dash with
  | none => false
  | some d => d.effectiveCap ≠ 0

/-- CapAccountant formula, computed inline in App.jsx as
Math.max(0, cap - used - pendingLocal) (with pendingLocal = 0 at finalize
time: available = Math.max(0, cap - used)). -/
def remaining (cap used pendingLocal : Int) : Int :=
  max 0 (cap - used - pendingLocal)

/-- Outcome of one handleFinalize invocation up to the write submission
(App.jsx lines 157-192). -/
inductive FinalizeOutcome
  /-- Early return: pendingMines ≤ 0 or the synchronous debounce flag is set;
  nothing is changed and no write is submitted. -/
  | blocked
  /-- countToFinalize ≤ 0: the error message asking the user to wait for the
  next epoch is shown, the flag is reset, and no write is submitted. -/
  | capWait
  /-- finalizeMines(count) is submitted. -/
  | submit (count : Int)
deriving DecidableEq

/-- Pre-flight logic of handleFinalize in App.jsx: the debounce guard, the
cap computation cap = effectiveCap || hardCap || 1, used =
dashboard?.pendingTickets || 0, available = Math.max(0, cap - used),
countToFinalize = Math.min(pendingMines, available), the wait-for-next-epoch
early return when countToFinalize ≤ 0, and otherwise the submission of
finalizeMines(countToFinalize). -/
def handleFinalizePre (pendingMines : Int) (flag : Bool)
    (dash : Option Dashboard) : FinalizeOutcome :=
  if pendingMines ≤ 0 ∨ flag then .blocked
  else
    let cap : Int := capFinalize dash
    let used : Int := usedTickets dash
    let available := max 0 (cap - used)
    let countToFinalize := min pendingMines available
    if countToFinalize ≤ 0 then .capWait
    else .submit countToFinalize

/-- C1: For every finalize invocation with optimistic pending count p > 0 and
guard clear, with c the epoch cap and u the used tickets taken from the latest
dashboard, the controller submits finalizeMines with count exactly
min(p, max(0, c - u)) whenever that value is positive; that count never
exceeds remaining(c, u, 0); and when min(p, max(0, c - u)) = 0 no write is
submitted and the wait-for-next-epoch condition is surfaced instead. -/
theorem finalize_submits_min_of_pending_and_remaining
    (p : Int) (dash : Option Dashboard) (hp : 0 < p) :
    (0 < min p (max 0 ((capFinalize dash : Int) - usedTickets dash)) →
      handleFinalizePre p false dash =
        .submit (min p (max 0 ((capFinalize dash : Int) - usedTickets dash)))) ∧
    (min p (max 0 ((capFinalize dash : Int) - usedTickets dash)) ≤
      remaining (capFinalize dash) (usedTickets dash) 0) ∧
    (min p (max 0 ((capFinalize dash : Int) - usedTickets dash)) = 0 →
      handleFinalizePre p false dash = .capWait) := by
  refine ⟨?_, ?_, ?_⟩
  · intro hpos
    unfold handleFinalizePre
    rw [if_neg (by simp [not_or]; omega)]
    simp only
    rw [if_neg (by omega)]
  · unfold remaining
    omega
  · intro hzero
    unfold handleFinalizePre
    rw [if_neg (by simp [not_or]; omega)]
    simp only
    rw [if_pos (by omega)]

/-- Witness for C1 at p = 5, dashboard with effectiveCap 10, used 2:
count is min(5, 8) = 5 and the submission fires. -/
theorem finalize_submits_min_of_pending_and_remaining_witness :
    (0 : Int) < 5 ∧
    (handleFinalizePre 5 false (some ⟨10, 10, 2⟩) = .submit 5 ∧
      handleFinalizePre 1 false (some ⟨10, 10, 10⟩) = .capWait) := by
  refine ⟨by decide, ?_, ?_⟩
  · have h := finalize_submits_min_of_pending_and_remaining 5
      (some ⟨10, 10, 2⟩) (by decide)
    have h1 := h.1 (by decide)
    simpa using h1
  · have h := finalize_submits_min_of_pending_and_remaining 1
      (some ⟨10, 10, 10⟩) (by decide)
    have h1 := h.2.2 (by decide)
    simpa using h1

/-! ### C2: the synchronous finalize debounce guard

handleFinalize runs on a single-threaded event loop. Its entry segment - the
guard check, finalizingRef.current = true, the countToFinalize computation and
the early returns - is synchronous JavaScript with no suspension point, so it
executes atomically. After the entry segment the flag stays true across every
await (nothing else writes the flag) until the finally block clears it. We
model one invocation by its entry result, and a double invocation by the
schedule point at which the second entry segment runs relative to the first
invocation's remaining segments (write submission, terminal cleanup). -/

/-- Result of the atomic entry segment of handleFinalize. The returned Bool is
the value of finalizingRef.current when the segment yields the event loop. -/
inductive EntryRes
  /-- Guard hit: pendingMines ≤ 0 or the flag was already true; returns at
  once with the flag unchanged and never submits a write. -/
  | blocked
  /-- countToFinalize ≤ 0: the flag is set and then reset inside the same
  synchronous segment; terminal, no write. -/
  | capWait
  /-- The invocation holds the flag and proceeds to submit the write. -/
  | proceeding (count : Int)
deriving DecidableEq

/-- Atomic entry segment of handleFinalize: given the flag value at entry,
returns the entry result and the flag value left behind. Mirrors App.jsx lines
157-192: the check-and-set happens before any await. -/
def finalizeEntry (pendingMines : Int) (dash : Option Dashboard)
    (flag : Bool) : EntryRes × Bool :=
  if pendingMines ≤ 0 ∨ flag then (.blocked, flag)
  else
    let cap : Int := capFinalize dash
    let used : Int := usedTickets dash
    let countToFinalize := min pendingMines (max 0 (cap - used))
    if countToFinalize ≤ 0 then (.capWait, false)
    else (.proceeding countToFinalize, true)

/-- Number of finalizeMines writes an invocation with this entry result
submits: only a proceeding invocation reaches the finalizeMines call. -/
def entryWrites : EntryRes → Nat
  | .proceeding _ => 1
  | _ => 0

/-- Event-loop position at which the second invocation's entry segment runs,
relative to the first invocation. The first two points lie strictly before
the first invocation's terminal cleanup (the finally block that clears
finalizingRef.current); the last lies after it. -/
inductive Sched
  | betweenEntryAndSubmit
  | betweenSubmitAndCleanup
  | afterCleanup
deriving DecidableEq

/-- Interleaved execution of two handleFinalize invocations on the
single-threaded event loop. The first entry runs on a clear flag; the second
entry runs at schedule point s; the flag it observes is the one the first
invocation left behind, except after the first invocation's cleanup, which
has reset it to false. Returns the total number of submitted finalizeMines
writes and the second invocation's entry result. -/
def doubleInvoke (p₁ p₂ : Int) (d₁ d₂ : Option Dashboard)
    (s : Sched) : Nat × EntryRes :=
  let r₁ := finalizeEntry p₁ d₁ false
  let flagAtSecond := match s with
    | .afterCleanup => false
    | _ => r₁.2
  let r₂ := finalizeEntry p₂ d₂ flagAtSecond
  (entryWrites r₁.1 + entryWrites r₂.1, r₂.1)

/-- C2: if finalize is invoked a second time before the first invocation has
terminally completed, exactly one finalize write is submitted in total: the
first invocation sets the synchronous guard flag before any suspension point
and clears it only in the terminal cleanup, so the second invocation observes
the flag and returns blocked without submitting. Hypotheses: the first
invocation actually proceeds to a submission (pending count positive and a
positive finalizable count), and the second entry is scheduled before the
first invocation's cleanup. -/
theorem finalize_double_invocation_single_write
    (p₁ p₂ : Int) (d₁ d₂ : Option Dashboard) (s : Sched)
    (hp : 0 < p₁)
    (hc : 0 < min p₁ (max 0 ((capFinalize d₁ : Int) - usedTickets d₁)))
    (hs : s ≠ .afterCleanup) :
    doubleInvoke p₁ p₂ d₁ d₂ s = (1, .blocked) := by
  have hentry : finalizeEntry p₁ d₁ false =
      (.proceeding (min p₁ (max 0 ((capFinalize d₁ : Int) - usedTickets d₁))),
        true) := by
    unfold finalizeEntry
    rw [if_neg (by simp [not_or]; omega)]
    simp only
    rw [if_neg (by omega)]
  unfold doubleInvoke
  rw [hentry]
  cases s with
  | afterCleanup => exact absurd rfl hs
  | betweenEntryAndSubmit =>
      simp only
      rw [show finalizeEntry p₂ d₂ true = (.blocked, true) by
        unfold finalizeEntry; rw [if_pos (Or.inr rfl)]]
      rfl
  | betweenSubmitAndCleanup =>
      simp only
      rw [show finalizeEntry p₂ d₂ true = (.blocked, true) by
        unfold finalizeEntry; rw [if_pos (Or.inr rfl)]]
      rfl

/-- Witness for C2: two invocations with pending 5 against a dashboard with
effectiveCap 10 and used 2, the second scheduled between the first entry and
its submission. -/
theorem finalize_double_invocation_single_write_witness :
    (0 : Int) < 5 ∧
    doubleInvoke 5 5 (some ⟨10, 10, 2⟩) (some ⟨10, 10, 2⟩)
      .betweenEntryAndSubmit = (1, .blocked) := by
  refine ⟨by decide, ?_⟩
  exact finalize_double_invocation_single_write 5 5
    (some ⟨10, 10, 2⟩) (some ⟨10, 10, 2⟩) .betweenEntryAndSubmit
    (by decide) (by decide) (by decide)

/-! ### C3 and C9: post-finalize reconciliation -/

/-- Pending-mines reconciliation from handleFinalize (App.jsx lines 203-221):
expectedRemaining = Math.max(0, pendingMines - countToFinalize); if the
freshly polled newPending ≥ the pre-operation pendingMines the RPC data is
treated as stale and the optimistic value is kept, otherwise the polled value
is adopted. -/
def reconcilePending (pre count polled : Int) : Int :=
  let expectedRemaining := max 0 (pre - count)
  if polled ≥ pre then expectedRemaining else polled

/-- Used-tickets reconciliation from handleFinalize (App.jsx lines 223-243):
oldUsed and newUsed are dashboard?.pendingTickets || 0 of the pre-operation
and freshly fetched dashboards; if newUsed ≤ oldUsed the RPC data is treated
as stale and the used counter is forced to oldUsed + countToFinalize,
otherwise the fetched dashboard is adopted. -/
def reconcileUsed (oldUsed count newUsed : Int) : Int :=
  if newUsed ≤ oldUsed then oldUsed + count else newUsed

/-- Combined post-confirmation update of handleFinalize: the reconciled
pending-mines counter and the reconciled used-tickets counter, from the
pre-operation pending count, the pre-operation dashboard, the finalized
count, and the freshly polled pending count and dashboard. -/
def finalizePostUpdate (pre : Int) (oldDash : Option Dashboard)
    (count polled : Int) (newDash : Option Dashboard) : Int × Int :=
  (reconcilePending pre count polled,
   reconcileUsed (usedTickets oldDash) count (usedTickets newDash))

/-- C3: for a finalize of k units with pre-operation pending value pre, if the
freshly polled value satisfies polled ≥ pre the reconciled pending counter is
max(0, pre - k) and the polled value is discarded; if polled < pre the polled
value is adopted. The mirrored rule governs the dashboard used-tickets
counter, which is expected to increase by k: a fetched value ≤ the
pre-operation value is discarded in favor of oldUsed + k, and a larger
fetched value is adopted. -/
theorem finalize_reconciliation_rule
    (pre k polled : Int) (oldDash newDash : Option Dashboard) :
    (polled ≥ pre →
      (finalizePostUpdate pre oldDash k polled newDash).1 = max 0 (pre - k)) ∧
    (polled < pre →
      (finalizePostUpdate pre oldDash k polled newDash).1 = polled) ∧
    ((usedTickets newDash : Int) ≤ usedTickets oldDash →
      (finalizePostUpdate pre oldDash k polled newDash).2 =
        (usedTickets oldDash : Int) + k) ∧
    ((usedTickets oldDash : Int) < usedTickets newDash →
      (finalizePostUpdate pre oldDash k polled newDash).2 =
        (usedTickets newDash : Int)) := by
  refine ⟨fun h => ?_, fun h => ?_, fun h => ?_, fun h => ?_⟩ <;>
    simp only [finalizePostUpdate, reconcilePending, reconcileUsed] <;>
    [rw [if_pos h]; rw [if_neg (by omega)]; rw [if_pos h];
     rw [if_neg (by omega)]]

/-- Witness for C3, the scenario from the spec: a poll returns pendingMines 6
immediately after a finalize of 3 when the pre-operation value was 5; since
6 ≥ 5 the reconciliation keeps the optimistic value 2, and a stale used count
of 2 against a pre-operation used count of 2 is forced to 2 + 3 = 5. -/
theorem finalize_reconciliation_rule_witness :
    (6 : Int) ≥ 5 ∧
    (finalizePostUpdate 5 (some ⟨10, 10, 2⟩) 3 6 (some ⟨10, 10, 2⟩)).1 = 2 ∧
    (finalizePostUpdate 5 (some ⟨10, 10, 2⟩) 3 6 (some ⟨10, 10, 2⟩)).2 = 5 := by
  refine ⟨by decide, ?_, ?_⟩
  · have h := (finalize_reconciliation_rule 5 3 6
      (some ⟨10, 10, 2⟩) (some ⟨10, 10, 2⟩)).1 (by decide)
    simpa using h
  · have h := (finalize_reconciliation_rule 5 3 6
      (some ⟨10, 10, 2⟩) (some ⟨10, 10, 2⟩)).2.2.1 (by decide)
    simpa using h

/-- ReconciliationEngine merge contract from the spec, with the optimistic
estimate abstracted as its own argument: the branch structure is exactly the
one of App.jsx lines 211-221, which instantiates postOpOptimistic with
Math.max(0, pre - count). -/
def merge (preOpValue postOpOptimistic freshlyPolled : Int) : Int :=
  if freshlyPolled ≥ preOpValue then postOpOptimistic else freshlyPolled

/-- C9: the reconciliation merge is idempotent: for all pre-operation,
optimistic and freshly polled values, feeding the result of one merge back in
as the polled value of a second merge with the same pre-operation and
optimistic inputs yields the same reconciled value; and the code's
reconcilePending is this merge at optimistic estimate max(0, pre - k), so the
same idempotence holds for it. -/
theorem merge_idempotent (pre opt polled k : Int) :
    merge pre opt (merge pre opt polled) = merge pre opt polled ∧
    reconcilePending pre k polled = merge pre (max 0 (pre - k)) polled ∧
    reconcilePending pre k (reconcilePending pre k polled) =
      reconcilePending pre k polled := by
  have hdef : ∀ a b c : Int, merge a b c = if c ≥ a then b else c :=
    fun a b c => rfl
  have hrec : reconcilePending pre k polled =
      merge pre (max 0 (pre - k)) polled := rfl
  refine ⟨?_, hrec, ?_⟩
  · rw [hdef pre opt polled]
    by_cases h : polled ≥ pre
    · rw [if_pos h, hdef]
      split <;> rfl
    · rw [if_neg h, hdef, if_neg h]
  · rw [hrec]
    have h2 : reconcilePending pre k (merge pre (max 0 (pre - k)) polled) =
        merge pre (max 0 (pre - k)) (merge pre (max 0 (pre - k)) polled) := rfl
    rw [h2]
    rw [hdef pre (max 0 (pre - k)) polled]
    by_cases h : polled ≥ pre
    · rw [if_pos h, hdef]
      split <;> rfl
    · rw [if_neg h, hdef, if_neg h]

/-! ### C4 and C5: claim batch selection

getClaimableEpochsBatch in src/src/services/contracts.js reads the candidate
(epoch, amount) lists, the rewardTokenPool counter and the miner contract's
token balance, takes effectivePool as the smaller of the two bounds, and scans
the candidates in order: zero amounts are skipped with continue, an amount not
above the remaining pool is included and subtracted, and the first non-zero
amount above the remaining pool breaks the loop. Amounts are unsigned wei
bigints, modelled as Nat. -/

/-- The selection loop of getClaimableEpochsBatch, carrying poolRemaining. -/
def selectClaims (candidates : List (Nat × Nat)) (poolRemaining : Nat) :
    List (Nat × Nat) :=
  match candidates with
  | [] => []
  | (e, a) :: rest =>
    if a = 0 then selectClaims rest poolRemaining
    else if a ≤ poolRemaining then (e, a) :: selectClaims rest (poolRemaining - a)
    else []

/-- getClaimableEpochsBatch selection with its pool initialization:
effectivePool = poolVar < tokenBalance ? poolVar : tokenBalance. -/
def claimBatchSelection (candidates : List (Nat × Nat))
    (poolVar tokenBalance : Nat) : List (Nat × Nat) :=
  selectClaims candidates (if poolVar < tokenBalance then poolVar else tokenBalance)

/-- Total amount of a selected batch, the runningTotal of the source loop. -/
def batchTotal (batch : List (Nat × Nat)) : Nat :=
  (batch.map Prod.snd).sum

/-- The ternary poolVar < tokenBalance ? poolVar : tokenBalance is min. -/
theorem effectivePool_eq_min (poolVar tokenBalance : Nat) :
    (if poolVar < tokenBalance then poolVar else tokenBalance) =
      min poolVar tokenBalance := by
  split <;> omega

/-- C4: the claim batch selection is first-fit over the candidate list in the
order given: zero-amount entries are skipped without terminating the scan, a
non-zero candidate with amount ≤ remainingPool is included and decrements
remainingPool, the scan stops at the first non-zero candidate whose amount
exceeds remainingPool, and the scan starts from
effectivePool = min(poolVar, tokenBalance). The final conjunct is the spec
scenario: candidates [(1,10),(2,10),(3,10)] against an effective pool of 15
select epoch 1 alone. -/
theorem claim_batch_first_fit (e a r poolVar tokenBalance : Nat)
    (rest : List (Nat × Nat)) (ha : 0 < a) :
    (selectClaims ((e, 0) :: rest) r = selectClaims rest r) ∧
    (a ≤ r → selectClaims ((e, a) :: rest) r =
      (e, a) :: selectClaims rest (r - a)) ∧
    (r < a → selectClaims ((e, a) :: rest) r = []) ∧
    (claimBatchSelection rest poolVar tokenBalance =
      selectClaims rest (min poolVar tokenBalance)) ∧
    (claimBatchSelection [(1, 10), (2, 10), (3, 10)] 15 200 = [(1, 10)]) := by
  refine ⟨rfl, fun hfit => ?_, fun hbig => ?_, ?_, by decide⟩
  · simp only [selectClaims]
    rw [if_neg (by omega), if_pos hfit]
  · simp only [selectClaims]
    rw [if_neg (by omega), if_neg (by omega)]
  · unfold claimBatchSelection
    rw [effectivePool_eq_min]

/-- Witness for C4 at a = 10 ≤ r = 15 with one further candidate. -/
theorem claim_batch_first_fit_witness :
    0 < 10 ∧
    selectClaims [(1, 10), (2, 10)] 15 = [(1, 10)] := by
  refine ⟨by decide, ?_⟩
  have h := (claim_batch_first_fit 1 10 15 15 200 [(2, 10)] (by decide)).2.1
    (by decide)
  rw [h]
  decide

/-- The selection loop never spends more than the pool it starts from. -/
theorem batchTotal_selectClaims_le (candidates : List (Nat × Nat)) :
    ∀ r : Nat, batchTotal (selectClaims candidates r) ≤ r := by
  induction candidates with
  | nil => intro r; simp [selectClaims, batchTotal]
  | cons hd rest ih =>
      intro r
      obtain ⟨e, a⟩ := hd
      simp only [selectClaims]
      by_cases h0 : a = 0
      · rw [if_pos h0]; exact ih r
      · rw [if_neg h0]
        by_cases hfit : a ≤ r
        · rw [if_pos hfit]
          have := ih (r - a)
          simp only [batchTotal, List.map_cons, List.sum_cons]
          simp only [batchTotal] at this
          omega
        · rw [if_neg hfit]
          simp [batchTotal]

/-- C5: for every candidate list and every pair of pool bounds read at the
start of the call, the total amount of the selected claim batch never exceeds
min(reward pool counter, miner contract token balance). -/
theorem claim_batch_total_bounded (candidates : List (Nat × Nat))
    (poolVar tokenBalance : Nat) :
    batchTotal (claimBatchSelection candidates poolVar tokenBalance) ≤
      min poolVar tokenBalance := by
  unfold claimBatchSelection
  rw [effectivePool_eq_min]
  exact batchTotal_selectClaims_le candidates (min poolVar tokenBalance)

/-! ### C6: mine pre-flight capacity check -/

/-- Outcome of the handleMine pre-flight checks (App.jsx lines 259-302). -/
inductive MineOutcome
  /-- tickets ≤ 0: the enter-a-valid-amount error. -/
  | invalidAmount
  /-- Ticket price not loaded yet. -/
  | priceLoading
  /-- Precise cap with remainingCap ≤ 0: the Epoch Cap Reached error, no
  write. -/
  | capReached
  /-- Precise cap and tickets > remainingCap: the only-N-more error, no
  write. -/
  | exceedsRemaining
  /-- ETH cost above MINING_LIMITS.MAX_ETH, no write. -/
  | exceedsMax
  /-- The mine write is submitted; warned records whether the legacy base-cap
  note was shown on the way. -/
  | submit (tickets : Int) (warned : Bool)
deriving DecidableEq

/-- Pre-flight logic of handleMine: tickets = parseInt of the input, the
price-loaded check, effectiveCap = dashboard?.effectiveCap ||
dashboard?.hardCap || 0, currentTickets = dashboard?.pendingTickets || 0,
remainingCap = effectiveCap - currentTickets - pendingMines, isPreciseCap =
!!dashboard?.effectiveCap. When effectiveCap > 0 and remainingCap ≤ 0: with a
precise cap the request is rejected with the epoch-cap error, without one
only a note is shown and the flow continues. Then the precise-cap
tickets > remainingCap check, then the MAX_ETH cost check (the floating-point
cost comparison is abstracted as the Boolean costOk), then the mine write. -/
def handleMinePre (tickets : Int) (hasPrice : Bool) (dash : Option Dashboard)
    (pendingMines : Int) (costOk : Bool) : MineOutcome :=
  if tickets ≤ 0 then .invalidAmount
  else if ¬hasPrice then .priceLoading
  else
    let effectiveCap : Int := capMine dash
    let currentTickets : Int := usedTickets dash
    let remainingCap := effectiveCap - currentTickets - pendingMines
    let isPreciseCap := hasPreciseCap dash
    let warned := 0 < effectiveCap ∧ remainingCap ≤ 0 ∧ isPreciseCap = false
    if 0 < effectiveCap ∧ remainingCap ≤ 0 ∧ isPreciseCap = true then
      .capReached
    else if isPreciseCap = true ∧ remainingCap < tickets then
      .exceedsRemaining
    else if ¬costOk then .exceedsMax
    else .submit tickets (decide warned)

/-- C6 counterexample: the claim fails as stated. With a legacy dashboard
reporting effectiveCap 0 and hardCap 10, used tickets 7 and 3 locally pending
mines, the effective cap used by the code is 10 and
remaining(10, 7, 3) = 0, yet a mine request for 1 ticket is not rejected:
handleMine only shows the base-cap note and submits the write. -/
theorem mine_cap_zero_remaining_not_rejected :
    remaining (capMine (some ⟨0, 10, 7⟩)) (usedTickets (some ⟨0, 10, 7⟩)) 3
      = 0 ∧
    handleMinePre 1 true (some ⟨0, 10, 7⟩) 3 true = .submit 1 true := by
  constructor
  · decide
  · decide

/-- C6 amended: for every ticket count t ≥ 1, once the ticket price is loaded,
a mine request is rejected with the capacity-exceeded error and no write is
submitted whenever the dashboard reports a nonzero (precise) effectiveCap and
remaining(cap, used, pendingLocal) = 0 for that cap, the dashboard's used
tickets and the locally pending mines. With only the legacy hardCap fallback
the code shows a warning note but submits anyway. -/
theorem mine_rejected_when_no_precise_capacity
    (tickets pendingMines : Int) (d : Dashboard) (costOk : Bool)
    (ht : 1 ≤ tickets)
    (hprecise : d.effectiveCap ≠ 0)
    (hrem : remaining (capMine (some d)) (usedTickets (some d)) pendingMines
      = 0) :
    handleMinePre tickets true (some d) pendingMines costOk = .capReached := by
  have hcap : capMine (some d) = d.effectiveCap := by
    simp [capMine, hprecise]
  have hprec : hasPreciseCap (some d) = true := by
    simp [hasPreciseCap, hprecise]
  have husd : usedTickets (some d) = d.pendingTickets := rfl
  unfold remaining at hrem
  rw [hcap, husd] at hrem
  unfold handleMinePre
  rw [if_neg (by omega), if_neg (by simp)]
  simp only [hcap, husd, hprec]
  rw [if_pos ⟨by omega, by omega, by trivial⟩]

/-- Witness for C6 amended: a precise dashboard with effectiveCap 10, used 7
and 3 locally pending mines has remaining 0, and a 1-ticket mine request is
rejected with the capacity error. -/
theorem mine_rejected_when_no_precise_capacity_witness :
    ((1 : Int) ≤ 1 ∧ (10 : Nat) ≠ 0 ∧
      remaining (capMine (some ⟨10, 10, 7⟩)) (usedTickets (some ⟨10, 10, 7⟩)) 3
        = 0) ∧
    handleMinePre 1 true (some ⟨10, 10, 7⟩) 3 true = .capReached := by
  refine ⟨⟨by decide, by decide, by decide⟩, ?_⟩
  exact mine_rejected_when_no_precise_capacity 1 3 ⟨10, 10, 7⟩ true
    (by decide) (by decide) (by decide)

/-! ### C7: nonnegativity of the optimistic pending counter -/

/-- getPendingMines from the mining service: the read returns
Number(requested) - Number(claimed), requested and claimed being the unsigned
userRequestCount and userClaimedCount chain counters; on read failure the
function returns 0. -/
def getPendingMines (requested claimed : Nat) : Int :=
  (requested : Int) - claimed

/-- Optimistic increment applied in handleMine right after the transaction is
sent: setPendingMines(prev => prev + 1). -/
def mineOptimistic (prev : Int) : Int := prev + 1

/-- Post-confirmation refresh in handleMine:
setPendingMines(prev => Math.max(prev, newPending)). -/
def minePostRefresh (prev polled : Int) : Int := max prev polled

/-- Failure rollback in handleMine: setPendingMines(actualPending), where
actualPending is the freshly fetched getPendingMines value, or 0 when even
that fetch fails. -/
def mineRollback (polled : Int) : Int := polled

/-- Optimistic decrement applied in handleFinalize right after the
transaction is sent: setPendingMines(prev => Math.max(0, prev - count)). -/
def finalizeOptimistic (prev count : Int) : Int := max 0 (prev - count)

/-- C7: the optimistic pending-mine counter is ≥ 0 after every operation that
mutates it, starting from a nonnegative counter: the optimistic increment on
mine, the optimistic decrement on finalize, the post-mine refresh, the
reconciliation after finalize (which either keeps max(0, pre - k) or adopts
the polled value), and the rollback to a freshly fetched value on failure.
The polled values themselves are nonnegative because getPendingMines returns
requested - claimed with claimed ≤ requested on the ledger, and 0 on read
failure. -/
theorem pending_counter_nonneg
    (prev pre k : Int) (requested claimed : Nat)
    (hprev : 0 ≤ prev)
    (hledger : claimed ≤ requested) :
    0 ≤ getPendingMines requested claimed ∧
    0 ≤ mineOptimistic prev ∧
    0 ≤ finalizeOptimistic prev k ∧
    0 ≤ minePostRefresh prev (getPendingMines requested claimed) ∧
    0 ≤ reconcilePending pre k (getPendingMines requested claimed) ∧
    0 ≤ mineRollback (getPendingMines requested claimed) := by
  have hpm : 0 ≤ getPendingMines requested claimed := by
    unfold getPendingMines; omega
  refine ⟨hpm, ?_, ?_, ?_, ?_, hpm⟩
  · unfold mineOptimistic; omega
  · unfold finalizeOptimistic; omega
  · unfold minePostRefresh; omega
  · have hre : reconcilePending pre k (getPendingMines requested claimed) =
        if getPendingMines requested claimed ≥ pre then max 0 (pre - k)
        else getPendingMines requested claimed := rfl
    rw [hre]
    split <;> omega

/-- Witness for C7 at prev = 2, pre = 5, k = 3, requested = 7, claimed = 4. -/
theorem pending_counter_nonneg_witness :
    ((0 : Int) ≤ 2 ∧ (4 : Nat) ≤ 7) ∧
    (0 ≤ getPendingMines 7 4 ∧
     0 ≤ mineOptimistic 2 ∧
     0 ≤ finalizeOptimistic 2 3 ∧
     0 ≤ minePostRefresh 2 (getPendingMines 7 4) ∧
     0 ≤ reconcilePending 5 3 (getPendingMines 7 4) ∧
     0 ≤ mineRollback (getPendingMines 7 4)) := by
  refine ⟨⟨by decide, by decide⟩, ?_⟩
  exact pending_counter_nonneg 2 5 3 7 4 (by decide) (by decide)

/-! ### C8: read endpoint rotation on failure

The read client in src/src/services/contracts.js holds a module-level cached
provider and a rotation index over RPC_ENDPOINTS (three entries).
getProvider builds a provider from RPC_ENDPOINTS[providerIndex] (falling back
to entry 0 if the index were out of range) when none is cached. resetProvider
clears the cache and advances providerIndex modulo the endpoint count.
getUserDashboard and the other read calls catch every failure, log it and
return null; no call site in the repository invokes resetProvider. -/

/-- Number of configured read endpoints: CONFIG.rpcUrl plus the two public
fallbacks (assuming CONFIG.rpcUrl is set; .filter(Boolean) keeps all
three). -/
def numEndpoints : Nat := 3

/-- Module-level state of the read client: the cached provider (tagged with
the endpoint it was built from) and the rotation index. -/
structure ReadClient where
  provider : Option Nat
  providerIndex : Nat
deriving DecidableEq

/-- Endpoint getProvider uses: the cached one, else
RPC_ENDPOINTS[providerIndex] || RPC_ENDPOINTS[0]. -/
def providerEndpoint (st : ReadClient) : Nat :=
  match st.provider with
  | some e => e
  | none => if st.providerIndex < numEndpoints then st.providerIndex else 0

/-- Effect of getProvider on the module state: caches a provider for the
selected endpoint. -/
def getProviderRun (st : ReadClient) : ReadClient :=
  { st with provider := some (providerEndpoint st) }

/-- resetProvider: provider = null, providerIndex = (providerIndex + 1) %
RPC_ENDPOINTS.length, then getProvider. -/
def resetProvider (st : ReadClient) : ReadClient :=
  getProviderRun { provider := none,
                   providerIndex := (st.providerIndex + 1) % numEndpoints }

/-- State evolution of one getUserDashboard call: the contract getter runs
getProvider, and on failure the catch block logs and returns null without
touching the provider or the index (resetProvider is never called). -/
def readCallStep (st : ReadClient) (fails : Bool) : ReadClient :=
  let st₁ := getProviderRun st
  match fails with
  | true => st₁
  | false => st₁

/-- C8: the code violates the claim. resetProvider does advance the rotation
index monotonically modulo the endpoint count, but no read call invokes it:
after a failed getUserDashboard call from the initial state the index is
still 0 and the next call uses endpoint 0 again, whereas the claimed
rotation-on-failure would leave the index at 1 and the next call on
endpoint 1. -/
theorem read_failure_does_not_rotate :
    (∀ st : ReadClient, (resetProvider st).providerIndex =
      (st.providerIndex + 1) % numEndpoints) ∧
    readCallStep ⟨none, 0⟩ true = ⟨some 0, 0⟩ ∧
    providerEndpoint (readCallStep ⟨none, 0⟩ true) = 0 ∧
    (resetProvider ⟨some 0, 0⟩).providerIndex = 1 ∧
    providerEndpoint (resetProvider ⟨some 0, 0⟩) = 1 := by
  refine ⟨fun st => rfl, by decide, by decide, by decide, by decide⟩

/-! ### C10: user decline is sanitized and suppressed -/

/-- JavaScript String.prototype.includes, over the character list of the
receiver. -/
def includesAux (pat : List Char) : List Char → Bool
  | [] => pat.isEmpty
  | c :: cs => pat.isPrefixOf (c :: cs) || includesAux pat cs

/-- message.includes(pat). -/
def strIncludes (s pat : String) : Bool :=
  includesAux pat.toList s.toList

/-- ERROR_MESSAGES.TRANSACTION_REJECTED from src/src/constants/limits.js. -/
def TRANSACTION_REJECTED : String := "Transaction was rejected"

/-- ERROR_MESSAGES.NETWORK_ERROR. -/
def NETWORK_ERROR : String := "Network error. Please try again."

/-- ERROR_MESSAGES.INSUFFICIENT_BALANCE. -/
def INSUFFICIENT_BALANCE : String := "Insufficient ETH balance"

/-- ERROR_MESSAGES.NOT_ELIGIBLE. -/
def NOT_ELIGIBLE : String := "Hold ≥ 0.1 NARA for 3 hours to mine"

/-- ERROR_MESSAGES.MINING_PAUSED. -/
def MINING_PAUSED : String := "Mining is currently paused"

/-- sanitizeError from src/src/utils/validation.js. A falsy error is modelled
as none; some message models the extracted error.message (or the error when
it is itself a string). The classification cascade checks user rejection
first, then insufficient funds, eligibility, paused, generic network
markers; a short message free of hex payloads and stack-trace markers passes
through; anything else collapses to the generic network message. -/
def sanitizeError (error : Option String) : String :=
  match error with
  | none => NETWORK_ERROR
  | some message =>
    if strIncludes message "user rejected" || strIncludes message "User denied"
      then TRANSACTION_REJECTED
    else if strIncludes message "insufficient" ||
        strIncludes message "INSUFFICIENT_FUNDS" then INSUFFICIENT_BALANCE
    else if strIncludes message "not eligible" || strIncludes message "canMine"
      then NOT_ELIGIBLE
    else if strIncludes message "paused" then MINING_PAUSED
    else if strIncludes message "network" || strIncludes message "RPC" ||
        strIncludes message "timeout" then NETWORK_ERROR
    else if message.length < 100 && !(strIncludes message "0x") &&
        !(strIncludes message "at ") then message
    else NETWORK_ERROR

/-- State left by the catch and finally blocks of handleFinalize (App.jsx
lines 245-255): the displayed error (none when nothing is shown) and the
loading, finalizing and debounce-flag fields, all cleared in finally. -/
structure CatchResult where
  displayedError : Option String
  isLoading : Bool
  isFinalizing : Bool
  finalizingFlag : Bool
deriving DecidableEq

/-- Catch plus finally of handleFinalize: msg = sanitizeError(err); setError
only fires when msg differs from TRANSACTION_REJECTED, and the finally block
restores the idle state. -/
def finalizeCatch (err : Option String) : CatchResult :=
  let msg := sanitizeError err
  { displayedError := if msg = TRANSACTION_REJECTED then none else some msg,
    isLoading := false,
    isFinalizing := false,
    finalizingFlag := false }

/-- Error display decision of the handleMine catch block (App.jsx lines
331-343), which uses the same suppression comparison. -/
def mineCatchDisplays (err : Option String) : Option String :=
  let msg := sanitizeError err
  if msg = TRANSACTION_REJECTED then none else some msg

/-- C10: when the user declines to sign, the raw wallet message contains
user rejected or User denied; sanitizeError classifies it as the sanitized
TRANSACTION_REJECTED message, that classification is stable under the mining
service's own sanitizing rethrow, handleFinalize surfaces no error and
returns to the idle state, and the handleMine catch (which receives the
service-wrapped message) also displays nothing. -/
theorem user_decline_is_silent (m : String)
    (h : strIncludes m "user rejected" = true ∨
      strIncludes m "User denied" = true) :
    sanitizeError (some m) = TRANSACTION_REJECTED ∧
    sanitizeError (some (sanitizeError (some m))) = TRANSACTION_REJECTED ∧
    finalizeCatch (some m) =
      { displayedError := none, isLoading := false, isFinalizing := false,
        finalizingFlag := false } ∧
    mineCatchDisplays (some (sanitizeError (some m))) = none := by
  have h1 : sanitizeError (some m) = TRANSACTION_REJECTED := by
    unfold sanitizeError
    rcases h with h | h <;> simp [h]
  have h2 : sanitizeError (some TRANSACTION_REJECTED) =
      TRANSACTION_REJECTED := by decide
  refine ⟨h1, by rw [h1]; exact h2, ?_, ?_⟩
  · unfold finalizeCatch
    rw [h1]
    simp
  · unfold mineCatchDisplays
    rw [h1, h2]
    simp

/-- Witness for C10 at the standard MetaMask decline message. -/
theorem user_decline_is_silent_witness :
    strIncludes "MetaMask Tx Signature: User denied transaction signature."
      "User denied" = true ∧
    finalizeCatch
      (some "MetaMask Tx Signature: User denied transaction signature.") =
      { displayedError := none, isLoading := false, isFinalizing := false,
        finalizingFlag := false } := by
  refine ⟨by decide, ?_⟩
  exact (user_decline_is_silent
    "MetaMask Tx Signature: User denied transaction signature."
    (Or.inr (by decide))).2.2.1

end NaraUI
